import Mathlib

/-!
Verification development for the stock-anomaly-detector pipeline.

The Python source is embedded shallowly:
* machine floats become exact rationals; a possible `NaN` is modelled by
  `Option ℚ` (`none` = NaN), called `PyFloat` below;
* the external numeric library calls (`statsmodels.hpfilter`,
  `scipy.stats.zscore`, `scipy.signal.find_peaks`) are parameters of the
  model, bundled in `NumericsLib`; theorems that need a property those
  libraries guarantee (output length equals input length) take it as a
  hypothesis;
* mutation is made explicit by state passing.
-/

namespace StockSpec

/-- A Python float value; `none` models NaN. -/
abbrev PyFloat := Option ℚ

/-- Python `abs(x) > t` where `x` may be NaN: any comparison with NaN is
`False`. -/
def pyAbsGt (x : PyFloat) (t : ℚ) : Bool :=
  match x with
  | none => false
  | some q => decide (|q| > t)

/-- Python subtraction on possibly-NaN floats: NaN propagates. -/
def pySub (x y : PyFloat) : PyFloat :=
  match x, y with
  | some a, some b => some (a - b)
  | _, _ => none

/-- Python 3 `round` to an integer: round half to even (banker's rounding). -/
def pythonRound (q : ℚ) : ℤ :=
  let f := ⌊q⌋
  let frac := q - f
  if frac < 1/2 then f
  else if frac > 1/2 then f + 1
  else if f % 2 = 0 then f else f + 1

/-- `src/core/symbol_data.py`, `SymbolData`: per-symbol series and baseline.
`historical_data` is kept only through `full_prices` (its close column),
which is how every cited code path reads it. -/
structure SymbolData where
  symbol : String
  baseline_mean : ℚ
  baseline_std : ℚ
  full_prices : List ℚ
  timeframe : String
deriving DecidableEq

/-- `SymbolData.append_price`: the repository's in-place mutator for the
stored close sequence (state-passing form). -/
def SymbolData.append_price (data : SymbolData) (price : ℚ) : SymbolData :=
  { data with full_prices := data.full_prices ++ [price] }

/-- The threshold snapshot a detection call reads from the live
`config_manager`: `sigma_thresh` (default 30.0), `zscore_trend_thresh`
(default 2.0) and the `lambda_multiplier` mapping (default
`{1Min: 12, 1Day: 0.0436}`), each already resolved by
`config_manager.get(key, default)`. -/
structure Config where
  sigma_thresh : ℚ
  zscore_trend_thresh : ℚ
  lambda_multiplier : List (String × ℚ)
deriving DecidableEq

/-- The external numeric routines used by `ZScoreProcessor.process_data`,
taken as parameters of the embedding:
`hpfilter prices lamb` is the pair returned by
`statsmodels.tsa.filters.hp_filter.hpfilter` (the source unpacks it as
`df['trend'], df['cycle']`, in that order); `zscoreList` is
`scipy.stats.zscore` on a series without NaNs (its output may contain
NaNs); `findPeaks` is `scipy.signal.find_peaks`, returning the strictly
increasing indices of local maxima. -/
structure NumericsLib where
  hpfilter : List ℚ → ℤ → List ℚ × List ℚ
  zscoreList : List ℚ → List PyFloat
  findPeaks : List ℚ → List ℕ

/-- Return value of `ZScoreProcessor.get_last_action`. -/
structure LastAction where
  type : String
  price : ℚ
  samples_ago : Option ℤ
deriving DecidableEq

/-- `ZScoreProcessor.get_last_action` (zscore_processor.py lines 79-96),
over the close series and the peak/trough index lists of the analysed
component.  `peaks.index[-1]` / `troughs.index[-1]` become `getLastD _ 0`
(each is only read under a nonemptiness guard, as in the source);
`data.loc[i, 'c']` becomes `closes.getD i 0`; `len(data) -
data.index.get_loc(i) - 1` is `closes.length - i - 1` since the frame
carries the default range index.  `'N/A'` for samples-ago is `none`. -/
def get_last_action (closes : List ℚ) (peaks troughs : List ℕ) : LastAction :=
  if troughs = [] ∧ peaks = [] then
    { type := "None", price := 0, samples_ago := none }
  else if peaks ≠ [] ∧ (troughs = [] ∨ troughs.getLastD 0 < peaks.getLastD 0) then
    let i := peaks.getLastD 0
    { type := "Sell", price := closes.getD i 0,
      samples_ago := some ((closes.length : ℤ) - i - 1) }
  else
    let i := troughs.getLastD 0
    { type := "Buy", price := closes.getD i 0,
      samples_ago := some ((closes.length : ℤ) - i - 1) }

/-- Return value of `ZScoreProcessor.process_data`. -/
structure ProcessedData where
  lamb : ℤ
  zscore_trend : Option (List PyFloat)
  action : String
  price : ℚ
  samples_ago : Option ℤ
deriving DecidableEq

/-- `ZScoreProcessor.process_data` (zscore_processor.py lines 48-77).
`np.append(data.full_prices, new_price)` builds a fresh array bound to
the local `prices`; the stored `data.full_prices` is not reassigned.
The unused `velocity` / `zscore_velocity` columns are omitted.  The trend
column carries no NaN, so `dropna()` on it is the identity.  The
`df['zscore_trend'].empty` test is the emptiness of the assigned z-score
column (the assignment requires its length to match the frame's). -/
def process_data (cfg : Config) (lib : NumericsLib) (data : SymbolData)
    (new_price : ℚ) : ProcessedData :=
  let prices := data.full_prices ++ [new_price]
  let num_samples := prices.length
  let lambda_multiplier := (cfg.lambda_multiplier.lookup data.timeframe).getD 12
  let lamb := pythonRound (lambda_multiplier * num_samples)
  let hp := lib.hpfilter prices lamb
  let trendCol := hp.1
  let cycleCol := hp.2
  let zscoreTrendCol := lib.zscoreList trendCol
  let peaks := lib.findPeaks cycleCol
  let troughs := lib.findPeaks (cycleCol.map (fun x => -x))
  let la := get_last_action prices peaks troughs
  { lamb := lamb
  , zscore_trend := if zscoreTrendCol = [] then none else some zscoreTrendCol
  , action := la.type
  , price := la.price
  , samples_ago := la.samples_ago }

/-- The enriched part of a `DetectionResult`, present exactly when the
sigma threshold was crossed (the keys added by `result.update` in
`ZScoreProcessor.process`).  `zscore_trend` is `Option PyFloat`: outer
`none` is Python `None`, inner `none` is a NaN float. -/
structure Enrichment where
  symbol : String
  num_samples : ℕ
  lamb : ℤ
  action : String
  price : ℚ
  current_price : ℚ
  samples_ago : Option ℤ
  zscore_trend : Option PyFloat
  zscore_trend_alert : Bool
deriving DecidableEq

/-- `DetectionResult`: the dict produced per (symbol, new price)
evaluation by `ZScoreProcessor.process`. -/
structure DetectionResult where
  zscore : PyFloat
  alert : Bool
  latest_price : ℚ
  enrichment : Option Enrichment
deriving DecidableEq

/-- The keys `result.update` adds in `ZScoreProcessor.process` (lines
32-44) when the sigma threshold is crossed.
`processed_data['zscore_trend'][-1]` becomes `bind List.getLast?` (the
stored series is nonempty whenever it is not `None`, so the `bind`'s
empty case is unreachable); `result['zscore_trend_alert']` is
`abs(zscore_trend) > zscore_trend_thresh if zscore_trend is not None
else False`, which is also false on a NaN trend z-score.
`num_samples` is `len(data.full_prices)` as read after the
`process_data` call — which did not reassign the field. -/
def mkEnrichment (cfg : Config) (lib : NumericsLib) (data : SymbolData)
    (new_price : ℚ) : Enrichment :=
  let pd := process_data cfg lib data new_price
  let ztrend : Option PyFloat := pd.zscore_trend.bind List.getLast?
  { symbol := data.symbol
  , num_samples := data.full_prices.length
  , lamb := pd.lamb
  , action := pd.action
  , price := pd.price
  , current_price := new_price
  , samples_ago := pd.samples_ago
  , zscore_trend := ztrend
  , zscore_trend_alert :=
      match ztrend with
      | none => false
      | some t => pyAbsGt t cfg.zscore_trend_thresh }

/-- `ZScoreProcessor.process` (zscore_processor.py lines 15-46).
`zscore` is NaN when `baseline_std == 0`; both the `alert` flag (line
26) and the enrichment guard (line 30) are `abs(zscore) > sigma_thresh`,
false on NaN. -/
def process (cfg : Config) (lib : NumericsLib) (data : SymbolData)
    (new_price : ℚ) : DetectionResult :=
  let zscore_value : PyFloat :=
    if data.baseline_std = 0 then none
    else some ((new_price - data.baseline_mean) / data.baseline_std)
  { zscore := zscore_value
  , alert := pyAbsGt zscore_value cfg.sigma_thresh
  , latest_price := new_price
  , enrichment :=
      if pyAbsGt zscore_value cfg.sigma_thresh then
        some (mkEnrichment cfg lib data new_price)
      else none }

/-- The call `self.processor.process(symbol_data, price)` in state-passing
form: the detection result together with the `SymbolData` after the call.
`process` never reassigns `data.full_prices` (`np.append` returns a fresh
array bound to the local `prices`), so the data comes back unchanged. -/
def processCall (cfg : Config) (lib : NumericsLib) (data : SymbolData)
    (new_price : ℚ) : DetectionResult × SymbolData :=
  (process cfg lib data new_price, data)

/-- Per-symbol tracker state (`SymbolDataManager.price_trends[symbol]`),
initialised with every field `None`. -/
structure TrendState where
  last_action : Option String
  extreme_price : Option ℚ
  day_high : Option ℚ
  day_low : Option ℚ
deriving DecidableEq

/-- The initial `price_trends` entry
(`{'last_action': None, 'extreme_price': None, 'day_high': None,
'day_low': None}`). -/
def initialTrendState : TrendState :=
  { last_action := none, extreme_price := none, day_high := none, day_low := none }

/-- `StreamProcessor.log_alert` (stream_processor.py lines 98-119) in
state-passing form; returns the tracker state after the call and whether
the ALERT record was actually logged.  When the action differs from the
stored one and `extreme_price` is set, the TREND CHANGE record formats
`last_action`, `day_high` and `day_low` with string/float format specs;
if any of them is `None` that `format` call raises `TypeError`, which
aborts the method before the state update and the ALERT record (the
exception is swallowed by `handle_message`).  After a state update, the
ALERT record formats `result.get('zscore_trend')` with `>5.1f`, which
likewise raises if that value is Python `None` (a NaN float prints
fine). -/
def log_alert (st : TrendState) (r : DetectionResult) (e : Enrichment) :
    TrendState × Bool :=
  if st.last_action ≠ some e.action then
    if st.extreme_price.isSome ∧
        (st.last_action = none ∨ st.day_high = none ∨ st.day_low = none) then
      (st, false)
    else
      let st2 := { st with extreme_price := some r.latest_price,
                           last_action := some e.action }
      if e.zscore_trend = none then (st2, false) else (st2, true)
  else
    if e.zscore_trend = none then (st, false) else (st, true)

/-- Outcome of routing one inbound tick through
`StreamProcessor.process_data`. -/
structure TickOutcome where
  result : DetectionResult
  reachedLogAlert : Bool
  alertLogged : Bool
  trendState : TrendState

/-- `StreamProcessor.process_data` (stream_processor.py lines 80-96) for
one inbound `(symbol, price)` update — the executed path always passes a
single-symbol dict (`process_trade` / `process_bar`).  A result without
enrichment has no `'symbol'` key, so `result['symbol']` raises `KeyError`
and the handling of the message ends there (caught in `handle_message`);
otherwise the corroboration gate of line 93,
`abs(zscore) > sigma_thresh and (zscore_trend is None or
abs(zscore_trend) > zscore_trend_thresh)`, decides whether `log_alert`
is invoked. -/
def streamTick (cfg : Config) (lib : NumericsLib) (data : SymbolData)
    (st : TrendState) (price : ℚ) : TickOutcome :=
  let r := process cfg lib data price
  match r.enrichment with
  | none => { result := r, reachedLogAlert := false, alertLogged := false, trendState := st }
  | some e =>
    let gate := pyAbsGt r.zscore cfg.sigma_thresh &&
      (match e.zscore_trend with
       | none => true
       | some t => pyAbsGt t cfg.zscore_trend_thresh)
    if gate then
      let la := log_alert st r e
      { result := r, reachedLogAlert := true, alertLogged := la.2, trendState := la.1 }
    else
      { result := r, reachedLogAlert := false, alertLogged := false, trendState := st }

/-- `SymbolDataManager.update_price_trends` (symbol_data_manager.py lines
156-177).  Note that it compares the action against the lowercase
strings `'buy'` / `'sell'`, and that no caller of it exists in the
streaming pipeline. -/
def update_price_trends (st : TrendState) (current_price : ℚ) (action : String) :
    TrendState :=
  let st1 :=
    if st.last_action = some action then
      if action = "buy" then
        match st.extreme_price with
        | none => { st with extreme_price := some current_price }
        | some e =>
          if current_price < e then { st with extreme_price := some current_price }
          else st
      else if action = "sell" then
        match st.extreme_price with
        | none => { st with extreme_price := some current_price }
        | some e =>
          if e < current_price then { st with extreme_price := some current_price }
          else st
      else st
    else
      { st with last_action := some action, extreme_price := some current_price }
  let st2 :=
    match st1.day_high with
    | none => { st1 with day_high := some current_price }
    | some h =>
      if h < current_price then { st1 with day_high := some current_price } else st1
  match st2.day_low with
  | none => { st2 with day_low := some current_price }
  | some l =>
    if current_price < l then { st2 with day_low := some current_price } else st2

/-! ## Parallel fan-out (`src/parallel_processor.py`) -/

/-- The chunk sizes `np.array_split` uses for a sequence of length `n`
split into `k` parts: `n % k` chunks of size `n / k + 1` followed by the
remaining chunks of size `n / k`. -/
def splitSizes (n k : ℕ) : List ℕ :=
  List.replicate (n % k) (n / k + 1) ++ List.replicate (k - n % k) (n / k)

/-- Cut a list into consecutive chunks of the given sizes. -/
def takeChunks : List ℕ → List α → List (List α)
  | [], _ => []
  | s :: ss, l => l.take s :: takeChunks ss (l.drop s)

/-- `np.array_split(l, k)`: `k` contiguous chunks covering `l`. -/
def arraySplit (l : List α) (k : ℕ) : List (List α) :=
  takeChunks (splitSizes l.length k) l

/-- `ParallelProcessor._process_chunk` and the single-threaded loop of
`DataStreamManager.process_data` share this body: evaluate the processor
for each series whose symbol received an update, in list order.
`procFn` is `processor.process` with its threshold snapshot already
applied; `new_prices` is the update dict as an association list. -/
def processChunk (procFn : SymbolData → ℚ → DetectionResult)
    (chunk : List SymbolData) (new_prices : List (String × ℚ)) :
    List DetectionResult :=
  chunk.filterMap (fun d => (new_prices.lookup d.symbol).map (procFn d))

/-- `DataStreamManager.process_data`, single-threaded branch
(data_stream_manager.py lines 62-68). -/
def singleThreadedProcess (procFn : SymbolData → ℚ → DetectionResult)
    (symbol_data_list : List SymbolData) (new_prices : List (String × ℚ)) :
    List DetectionResult :=
  processChunk procFn symbol_data_list new_prices

/-- `ParallelProcessor.process_symbols` (parallel_processor.py lines
15-26): the worker count is `min(num_processes, mp.cpu_count())`, the
batch is split into that many contiguous chunks, each chunk is evaluated
independently, and the per-chunk result lists are concatenated in chunk
order. -/
def process_symbols (procFn : SymbolData → ℚ → DetectionResult)
    (num_processes cpu_count : ℕ) (symbol_data_list : List SymbolData)
    (new_prices : List (String × ℚ)) : List DetectionResult :=
  let n := min num_processes cpu_count
  ((arraySplit symbol_data_list n).map
    (fun chunk => processChunk procFn chunk new_prices)).flatten

/-! ## Baseline calibration (`src/data/symbol_data_manager.py`) -/

/-- One fetched bar, reduced to what calibration reads: the calendar day
of its timestamp and its close (a possibly-NaN float). -/
structure FetchedRow where
  date : ℤ
  close : PyFloat
deriving DecidableEq

/-- The baseline session day: `valid_days[-2]` when at least two valid
trading days were resolved, else `None`
(symbol_data_manager.py lines 67-70). -/
def lastValidDay (validDays : List ℤ) : Option ℤ :=
  if 1 < validDays.length then some (validDays.getD (validDays.length - 2) 0)
  else none

/-- The baseline close prices: the closes of the rows dated on the
baseline session day (`df[df['date'] == last_valid_day.date()]['close']`). -/
def baselinePrices (lvd : ℤ) (rows : List FetchedRow) : List PyFloat :=
  (rows.filter (fun r => r.date = lvd)).map (fun r => r.close)

/-- `np.mean` over possibly-NaN values: NaN if the list is empty or
contains a NaN. -/
def pyListMean (l : List PyFloat) : PyFloat :=
  if l.any (fun x => x.isNone) ∨ l = [] then none
  else some ((l.filterMap id).sum / l.length)

/-- The square of `np.std` (population variance).  The code only tests
`baseline_std == 0` and `math.isnan(baseline_std)`, and `std = 0 ↔
variance = 0`, `std NaN ↔ variance NaN`, so carrying the variance avoids
the irrational square root. -/
def pyListVariance (l : List PyFloat) : PyFloat :=
  match pyListMean l with
  | none => none
  | some m => some (((l.filterMap id).map (fun x => (x - m) ^ 2)).sum / l.length)

/-- The per-symbol drop decision of
`SymbolDataManager.initialize_symbol_data` (lines 58-121), given the
resolved valid trading days and the symbol's historical rows.  In order:
fewer than 2 rows; no baseline day (`last_valid_day is None`); fewer
than 2 baseline prices; `baseline_std == 0 or isnan(baseline_std) or
last_price is None or isnan(last_price)` (the last baseline price is
`baseline_prices[-1] if len > 0 else None`, so `None` and NaN collapse
to the same `none`); finally `isnan(z) or isinf(z)` for
`z = (last_price - mean)/std` — with exact rationals, a nonzero non-NaN
std and non-NaN operands, `z` is NaN only if the numerator is, and never
infinite, so that test reduces to the numerator's NaN-ness. -/
def dropDecision (validDays : List ℤ) (rows : List FetchedRow) : Bool :=
  if rows.length < 2 then true
  else
    match lastValidDay validDays with
    | none => true
    | some lvd =>
      let bps := baselinePrices lvd rows
      if bps.length < 2 then true
      else
        let m := pyListMean bps
        let v := pyListVariance bps
        let last : PyFloat := bps.getLastD none
        if v = some 0 ∨ v = none ∨ last = none then true
        else if pySub last m = none then true
        else false

/-- State of the `SymbolDataManager` after calibration: the surviving
active symbol set (`self.symbols`) and the surviving per-symbol series
map (`self.symbol_data`, keeping each symbol's rows). -/
structure CalibResult where
  symbols : List String
  symbolRows : List (String × List FetchedRow)
deriving DecidableEq

/-- `SymbolDataManager.initialize_data` followed by
`initialize_symbol_data` (symbol_data_manager.py lines 24-140), given
the resolved valid trading days and the fetcher's output (one entry per
symbol whose fetch did not raise; an empty row list is an empty frame).
Only non-empty frames create a `SymbolData` entry; the removal loop then
deletes every symbol whose drop decision fired from both `symbol_data`
and `symbols`. -/
def calibrate (symbols : List String) (validDays : List ℤ)
    (historical : List (String × List FetchedRow)) : CalibResult :=
  let symbolRows := historical.filter (fun p => ¬ p.2 = [])
  let toRemove :=
    (symbolRows.filter (fun p => dropDecision validDays p.2)).map Prod.fst
  { symbols := symbols.filter (fun s => ¬ toRemove.contains s)
  , symbolRows := symbolRows.filter (fun p => ¬ toRemove.contains p.1) }

/-- The drop conditions as the claim lists them, for a symbol whose
baseline session day is `lvd`: fewer than 2 historical rows, fewer than
2 baseline-session rows, baseline standard deviation zero or NaN, last
baseline price NaN (or missing), or a NaN/infinite baseline z-score of
the last baseline price (which, over exact rationals, reduces to a NaN
numerator). -/
def claimDropCond (lvd : ℤ) (rows : List FetchedRow) : Bool :=
  let bps := baselinePrices lvd rows
  decide (rows.length < 2) || decide (bps.length < 2) ||
  decide (pyListVariance bps = some 0) || decide (pyListVariance bps = none) ||
  decide (bps.getLastD none = none) ||
  decide (pySub (bps.getLastD none) (pyListMean bps) = none)

/-! ## Historical fetcher (`src/data/historical_data_fetcher.py`) -/

/-- What one HTTP attempt of `fetch_symbol_data` comes to:
* `ok rows` — 2xx with the symbol's bars;
* `okNoBars` — 2xx without the symbol in `"bars"`: `(symbol, empty frame)`;
* `rate429` — status 429: log, `asyncio.sleep(60)`, raise
  `aiohttp.ClientError` (retryable);
* `httpError` — any other non-2xx: `raise_for_status` raises
  `ClientResponseError`, a `ClientError` (retryable);
* `timeout` — `asyncio.TimeoutError` (retryable);
* `fatal` — any exception outside `(ClientError, TimeoutError)`:
  re-raised, not retried by tenacity. -/
inductive AttemptResult where
  | ok (rows : List FetchedRow)
  | okNoBars
  | rate429
  | httpError (code : ℕ)
  | timeout
  | fatal
deriving DecidableEq

/-- The exception types tenacity retries:
`retry_if_exception_type((aiohttp.ClientError, asyncio.TimeoutError))`. -/
def AttemptResult.retryable : AttemptResult → Bool
  | rate429 => true
  | httpError _ => true
  | timeout => true
  | _ => false

/-- The per-symbol rows an attempt returns on success. -/
def AttemptResult.succRows : AttemptResult → Option (List FetchedRow)
  | ok rows => some rows
  | okNoBars => some []
  | _ => none

/-- The fixed cool-down the attempt itself sleeps: 60 seconds on a 429,
nothing otherwise. -/
def coolDownOf (r : AttemptResult) : Option ℚ :=
  if r = AttemptResult.rate429 then some 60 else none

/-- The tenacity back-off before retrying after attempt `n`:
`wait_exponential(multiplier=1, min=4, max=60)`, i.e. `2 ^ n` seconds
clamped to `[4, 60]`. -/
def tenacityWait (n : ℕ) : ℚ :=
  max 4 (min 60 ((2 : ℚ) ^ n))

/-- The trace of one executed attempt: its 1-based number, its outcome,
the 429 cool-down slept inside it, and the tenacity back-off slept
before the next attempt (`none` when no further attempt follows). -/
structure AttemptEvent where
  number : ℕ
  result : AttemptResult
  coolDown : Option ℚ
  backoff : Option ℚ
deriving DecidableEq

/-- The retry loop tenacity wraps around `fetch_symbol_data`, starting at
attempt `n` with `fuel` attempts still allowed: stop on success, on a
non-retryable exception, or when the attempt budget
(`stop_after_attempt(5)`) is exhausted; otherwise sleep the back-off and
try again.  Returns the executed attempts and the final outcome (`none`
= the exception propagates to the caller). -/
def retryGo (att : ℕ → AttemptResult) : ℕ → ℕ →
    List AttemptEvent × Option (List FetchedRow)
  | _, 0 => ([], none)
  | n, fuel + 1 =>
    let r := att n
    match r.succRows with
    | some rows => ([⟨n, r, coolDownOf r, none⟩], some rows)
    | none =>
      if r.retryable ∧ fuel ≠ 0 then
        let rest := retryGo att (n + 1) fuel
        (⟨n, r, coolDownOf r, some (tenacityWait n)⟩ :: rest.1, rest.2)
      else ([⟨n, r, coolDownOf r, none⟩], none)

/-- `fetch_symbol_data` under its `@retry` decorator: at most 5 attempts,
numbered from 1. -/
def fetch_symbol_data (att : ℕ → AttemptResult) :
    List AttemptEvent × Option (List FetchedRow) :=
  retryGo att 1 5

/-- `fetch_historical_data` (historical_data_fetcher.py lines 15-19):
one task per symbol, `asyncio.gather(..., return_exceptions=True)` — so
one task's exception is materialised as a value instead of cancelling
the batch — then the comprehension keeps the non-exception results.
`att s` gives symbol `s`'s attempt outcomes. -/
def fetch_historical_data (symbols : List String)
    (att : String → ℕ → AttemptResult) : List (String × List FetchedRow) :=
  symbols.filterMap (fun s =>
    (fetch_symbol_data (att s)).2.map (fun rows => (s, rows)))

/-! ## Spec-side definitions and concrete instances -/

/-- The action classification as the spec words it: whichever of the last
peak index or last trough index is larger determines the action — a peak
gives `Sell`, a trough gives `Buy` — with the close at that index as
reference price and its distance from the end of the series as
samples-ago; with neither a peak nor a trough, action `"None"`,
reference price `0.0`, samples-ago undefined. -/
def lastActionSpec (closes : List ℚ) (peaks troughs : List ℕ) : LastAction :=
  match peaks.getLast?, troughs.getLast? with
  | none, none => { type := "None", price := 0, samples_ago := none }
  | some p, none =>
    { type := "Sell", price := closes.getD p 0,
      samples_ago := some ((closes.length : ℤ) - p - 1) }
  | none, some t =>
    { type := "Buy", price := closes.getD t 0,
      samples_ago := some ((closes.length : ℤ) - t - 1) }
  | some p, some t =>
    if t < p then
      { type := "Sell", price := closes.getD p 0,
        samples_ago := some ((closes.length : ℤ) - p - 1) }
    else
      { type := "Buy", price := closes.getD t 0,
        samples_ago := some ((closes.length : ℤ) - t - 1) }

/-- The trend z-score carried by a detection result, when any. -/
def resultTrendZ (r : DetectionResult) : Option PyFloat :=
  r.enrichment.bind (fun e => e.zscore_trend)

/-- Indices of strict local maxima — `scipy.signal.find_peaks` on a series
without plateaus; used to instantiate `NumericsLib` on concrete inputs. -/
def strictLocalMaxima (l : List ℚ) : List ℕ :=
  (List.range l.length).filter (fun i =>
    decide (0 < i) && decide (i + 1 < l.length) &&
    decide (l.getD (i - 1) 0 < l.getD i 0) &&
    decide (l.getD (i + 1) 0 < l.getD i 0))

/-- A concrete `NumericsLib` for evaluating the model on explicit inputs:
the filter returns the series itself for both components, the z-score
transform is the identity injection, peaks are strict local maxima.  It
satisfies the length-preservation facts the real libraries guarantee. -/
def libId : NumericsLib :=
  { hpfilter := fun l _ => (l, l)
  , zscoreList := fun l => l.map some
  , findPeaks := strictLocalMaxima }

/-- A threshold snapshot with low thresholds, for concrete runs:
`sigma_thresh = 2`, `zscore_trend_thresh = 1`, default multipliers. -/
def cfgLow : Config :=
  { sigma_thresh := 2, zscore_trend_thresh := 1
  , lambda_multiplier := [("1Min", 12), ("1Day", 109/2500)] }

/-- The threshold snapshot of the spec's concrete scenario:
`sigma_thresh = 3`. -/
def cfgThree : Config :=
  { sigma_thresh := 3, zscore_trend_thresh := 2
  , lambda_multiplier := [("1Min", 12), ("1Day", 109/2500)] }

/-- A concrete symbol series: baseline mean 0, std 1, two stored closes. -/
def dataA : SymbolData :=
  { symbol := "A", baseline_mean := 0, baseline_std := 1
  , full_prices := [5, 1], timeframe := "1Min" }

/-- The symbol series of the spec's concrete scenario: baseline mean
100.0, std 2.0. -/
def dataB : SymbolData :=
  { symbol := "B", baseline_mean := 100, baseline_std := 2
  , full_prices := [99, 101], timeframe := "1Min" }

/-- The tracker state after a first corroborated `Buy` evaluation of
`dataA` at price 9. -/
def trendStateBuy9 : TrendState :=
  { last_action := some "Buy", extreme_price := some 9
  , day_high := none, day_low := none }

/-! ## Helper lemmas -/

theorem getLastD_of_getLast?_eq {α : Type} (l : List α) (a b : α)
    (h : l.getLast? = some b) : l.getLastD a = b := by
  rw [List.getLastD_eq_getLast? a l, h]
  rfl

theorem process_zscore_eq (cfg : Config) (lib : NumericsLib)
    (data : SymbolData) (p : ℚ) :
    (process cfg lib data p).zscore =
      (if data.baseline_std = 0 then none
       else some ((p - data.baseline_mean) / data.baseline_std)) := rfl

theorem process_enrichment_eq (cfg : Config) (lib : NumericsLib)
    (data : SymbolData) (p : ℚ) :
    (process cfg lib data p).enrichment =
      (if pyAbsGt (process cfg lib data p).zscore cfg.sigma_thresh then
        some (mkEnrichment cfg lib data p)
       else none) := rfl

theorem process_data_zscore_trend_some (cfg : Config) (lib : NumericsLib)
    (data : SymbolData) (p : ℚ)
    (hhp : ∀ l lam, ((lib.hpfilter l lam).1).length = l.length)
    (hz : ∀ l, (lib.zscoreList l).length = l.length) :
    ∃ zc : List PyFloat, zc ≠ [] ∧
      (process_data cfg lib data p).zscore_trend = some zc := by
  unfold process_data
  simp only []
  set prices := data.full_prices ++ [p] with hprices
  set lamb := pythonRound
    (((cfg.lambda_multiplier.lookup data.timeframe).getD 12) * prices.length)
  set zc := lib.zscoreList (lib.hpfilter prices lamb).1 with hzc
  have hne : zc ≠ [] := by
    intro hnil
    have h1 : zc.length = prices.length := by
      rw [hzc, hz, hhp]
    have h2 : prices.length = data.full_prices.length + 1 := by
      simp [hprices]
    rw [hnil] at h1
    simp at h1
    omega
  exact ⟨zc, hne, by simp [hne]⟩

theorem mkEnrichment_trendZ_some (cfg : Config) (lib : NumericsLib)
    (data : SymbolData) (p : ℚ)
    (hhp : ∀ l lam, ((lib.hpfilter l lam).1).length = l.length)
    (hz : ∀ l, (lib.zscoreList l).length = l.length) :
    ∃ t, (mkEnrichment cfg lib data p).zscore_trend = some t := by
  obtain ⟨zc, hne, hsome⟩ := process_data_zscore_trend_some cfg lib data p hhp hz
  have hlast : ∃ t, zc.getLast? = some t := by
    have := List.getLast?_isSome.mpr hne
    exact Option.isSome_iff_exists.mp this
  obtain ⟨t, ht⟩ := hlast
  refine ⟨t, ?_⟩
  show ((process_data cfg lib data p).zscore_trend.bind List.getLast?) = some t
  rw [hsome]
  simpa using ht

/-! ## C5 -/

/-- C5: for every cycle-component series in an enriched evaluation, the
classified action is determined by whichever of the last peak index or
last trough index is larger — a peak yields `Sell`, a trough yields
`Buy` — with the reference price being the close at that index and
samples-ago its distance from the end of the series; with no peak and no
trough, action `"None"`, reference price `0.0`, samples-ago undefined.
`get_last_action` (the source's selection logic, given any peak/trough
index lists a cycle series can produce) coincides with that rule. -/
theorem c5_last_action_classification (closes : List ℚ)
    (peaks troughs : List ℕ) :
    get_last_action closes peaks troughs = lastActionSpec closes peaks troughs := by
  rcases hp : peaks.getLast? with _ | p
  · have hpe : peaks = [] := List.getLast?_eq_none_iff.mp hp
    rcases ht : troughs.getLast? with _ | t
    · have hte : troughs = [] := List.getLast?_eq_none_iff.mp ht
      simp [get_last_action, lastActionSpec, hpe, hte, hp, ht]
    · have hte : troughs ≠ [] := by
        intro h
        rw [h] at ht
        simp at ht
      have htd : troughs.getLastD 0 = t := getLastD_of_getLast?_eq _ _ _ ht
      simp [get_last_action, lastActionSpec, hpe, hte, hp, ht, htd]
  · have hpe : peaks ≠ [] := by
      intro h
      rw [h] at hp
      simp at hp
    have hpd : peaks.getLastD 0 = p := getLastD_of_getLast?_eq _ _ _ hp
    rcases ht : troughs.getLast? with _ | t
    · have hte : troughs = [] := List.getLast?_eq_none_iff.mp ht
      simp [get_last_action, lastActionSpec, hpe, hte, hp, ht, hpd]
    · have hte : troughs ≠ [] := by
        intro h
        rw [h] at ht
        simp at ht
      have htd : troughs.getLastD 0 = t := getLastD_of_getLast?_eq _ _ _ ht
      by_cases hlt : t < p
      · simp [get_last_action, lastActionSpec, hpe, hte, hp, ht, hpd, htd, hlt]
      · simp [get_last_action, lastActionSpec, hpe, hte, hp, ht, hpd, htd, hlt]

/-! ## C1 -/

/-- C1: a detection result routed through the stream processor reaches
the Tracker's alert emission (`log_alert`) exactly when both
`|zscore| > sigma_thresh` and `|zscore_trend| > zscore_trend_thresh`
hold; a result failing either condition — including one carrying no
trend z-score at all — never reaches it.  The hypotheses are the length
preservation the real `hpfilter` / `zscore` library calls guarantee;
under them a produced enrichment always carries a (possibly NaN) trend
z-score, so the `zscore_trend is None` escape of line 93 never fires. -/
theorem c1_alert_routing_iff (cfg : Config) (lib : NumericsLib)
    (data : SymbolData) (st : TrendState) (price : ℚ)
    (hhp : ∀ l lam, ((lib.hpfilter l lam).1).length = l.length)
    (hz : ∀ l, (lib.zscoreList l).length = l.length) :
    (streamTick cfg lib data st price).reachedLogAlert = true ↔
      (pyAbsGt (process cfg lib data price).zscore cfg.sigma_thresh = true ∧
       ∃ t, resultTrendZ (process cfg lib data price) = some t ∧
            pyAbsGt t cfg.zscore_trend_thresh = true) := by
  by_cases hσ : pyAbsGt (process cfg lib data price).zscore cfg.sigma_thresh = true
  · have hE : (process cfg lib data price).enrichment =
        some (mkEnrichment cfg lib data price) := by
      rw [process_enrichment_eq]
      simp [hσ]
    obtain ⟨t, htz⟩ := mkEnrichment_trendZ_some cfg lib data price hhp hz
    have hrtz : resultTrendZ (process cfg lib data price) = some t := by
      simp [resultTrendZ, hE, htz]
    have hstream : (streamTick cfg lib data st price).reachedLogAlert =
        pyAbsGt t cfg.zscore_trend_thresh := by
      cases hgt : pyAbsGt t cfg.zscore_trend_thresh
      · simp [streamTick, hE, hσ, htz, hgt]
      · simp [streamTick, hE, hσ, htz, hgt]
    rw [hstream]
    constructor
    · intro h
      exact ⟨hσ, t, hrtz, h⟩
    · rintro ⟨-, t', ht', hgt⟩
      rw [hrtz] at ht'
      cases ht'
      exact hgt
  · have hσ' : pyAbsGt (process cfg lib data price).zscore cfg.sigma_thresh = false := by
      cases h' : pyAbsGt (process cfg lib data price).zscore cfg.sigma_thresh
      · rfl
      · exact absurd h' hσ
    have hE : (process cfg lib data price).enrichment = none := by
      rw [process_enrichment_eq]
      simp [hσ']
    simp [streamTick, hE, hσ']

theorem eval_zscore_A9 : (process cfgLow libId dataA 9).zscore = some 9 := by
  rw [process_zscore_eq]
  norm_num [dataA]

theorem eval_sigma_A9 :
    pyAbsGt (process cfgLow libId dataA 9).zscore cfgLow.sigma_thresh = true := by
  rw [eval_zscore_A9]
  norm_num [pyAbsGt, cfgLow]

theorem eval_enrichment_A9 :
    (process cfgLow libId dataA 9).enrichment =
      some (mkEnrichment cfgLow libId dataA 9) := by
  rw [process_enrichment_eq, eval_sigma_A9]
  simp

theorem eval_pd_A9 : process_data cfgLow libId dataA 9 =
    { lamb := 36, zscore_trend := some [some 5, some 1, some 9]
    , action := "Buy", price := 1, samples_ago := some 1 } := by
  unfold process_data
  norm_num [dataA, cfgLow, libId, strictLocalMaxima, List.range_succ,
    get_last_action, pythonRound]
  simp

theorem eval_mk_A9 : mkEnrichment cfgLow libId dataA 9 =
    { symbol := "A", num_samples := 2, lamb := 36, action := "Buy", price := 1
    , current_price := 9, samples_ago := some 1, zscore_trend := some (some 9)
    , zscore_trend_alert := true } := by
  unfold mkEnrichment
  rw [eval_pd_A9]
  norm_num [dataA, pyAbsGt, cfgLow]

/-- Witness for C1: on a concrete corroborated tick (baseline mean 0,
std 1, sigma threshold 2, trend threshold 1, price 9) the result reaches
`log_alert`. -/
theorem c1_alert_routing_iff_witness :
    (streamTick cfgLow libId dataA initialTrendState 9).reachedLogAlert = true := by
  have h := c1_alert_routing_iff cfgLow libId dataA initialTrendState 9
    (fun _ _ => rfl) (fun l => List.length_map l some)
  have htrend : resultTrendZ (process cfgLow libId dataA 9) = some (some 9) := by
    simp [resultTrendZ, eval_enrichment_A9, eval_mk_A9]
  have hgt : pyAbsGt (some (9 : ℚ)) cfgLow.zscore_trend_thresh = true := by
    norm_num [pyAbsGt, cfgLow]
  exact h.mpr ⟨eval_sigma_A9, some 9, htrend, hgt⟩

/-! ## C4 -/

/-- C4: for every evaluation, when `baseline_std == 0` the z-score is
NaN and the sigma-alert flag is false regardless of the new price;
otherwise the z-score is `(new_price - mean)/std` and the sigma-alert
flag is set, and the enriched payload computed, exactly when `|z|`
strictly exceeds `sigma_thresh`. -/
theorem c4_sigma_gate (cfg : Config) (lib : NumericsLib) (data : SymbolData)
    (p : ℚ) :
    (data.baseline_std = 0 →
      (process cfg lib data p).zscore = none ∧
      (process cfg lib data p).alert = false) ∧
    (data.baseline_std ≠ 0 →
      (process cfg lib data p).zscore =
        some ((p - data.baseline_mean) / data.baseline_std) ∧
      ((process cfg lib data p).alert = true ↔
        |(p - data.baseline_mean) / data.baseline_std| > cfg.sigma_thresh) ∧
      ((process cfg lib data p).enrichment.isSome = true ↔
        |(p - data.baseline_mean) / data.baseline_std| > cfg.sigma_thresh)) := by
  constructor
  · intro h
    simp [process, pyAbsGt, h]
  · intro h
    refine ⟨by simp [process, h], ?_, ?_⟩
    · simp [process, pyAbsGt, h]
    · simp [process, pyAbsGt, h]

/-- Witness for C4, the spec's concrete scenario: baseline mean 100.0,
std 2.0, `sigma_thresh` 3.0; price 94.0 gives z = -3.0, not strictly
above threshold, so sigma-alert false and no enrichment; price 93.9
gives z = -3.05, sigma-alert true with enrichment. -/
theorem c4_sigma_gate_witness :
    (process cfgThree libId dataB 94).alert = false ∧
    (process cfgThree libId dataB 94).enrichment.isSome = false ∧
    (process cfgThree libId dataB (939/10)).alert = true ∧
    (process cfgThree libId dataB (939/10)).enrichment.isSome = true := by
  have hstd : dataB.baseline_std ≠ 0 := by norm_num [dataB]
  have h1 := (c4_sigma_gate cfgThree libId dataB 94).2 hstd
  have h2 := (c4_sigma_gate cfgThree libId dataB (939/10)).2 hstd
  have hn94 : ¬ (|((94 : ℚ) - dataB.baseline_mean) / dataB.baseline_std| >
      cfgThree.sigma_thresh) := by
    norm_num [dataB, cfgThree]
  have hy939 : |((939/10 : ℚ) - dataB.baseline_mean) / dataB.baseline_std| >
      cfgThree.sigma_thresh := by
    norm_num [dataB, cfgThree]
    rw [abs_of_pos] <;> norm_num
  refine ⟨?_, ?_, ?_, ?_⟩
  · cases hb : (process cfgThree libId dataB 94).alert
    · rfl
    · exact absurd (h1.2.1.mp hb) hn94
  · cases hb : (process cfgThree libId dataB 94).enrichment.isSome
    · rfl
    · exact absurd (h1.2.2.mp hb) hn94
  · exact h2.2.1.mpr hy939
  · exact h2.2.2.mpr hy939

/-! ## C10 -/

/-- C10: whenever an evaluation crosses the sigma threshold, the
enriched payload reports `num_samples` as the length of the stored close
sequence at call time, while the smoothing coefficient is
`round(multiplier * (that length + 1))` — the decomposition runs on the
stored sequence extended by the new price, one longer than the reported
count — and a timeframe absent from the `lambda_multiplier` mapping uses
multiplier 12. -/
theorem c10_lambda_sample_count (cfg : Config) (lib : NumericsLib)
    (data : SymbolData) (p : ℚ) (e : Enrichment)
    (h : (process cfg lib data p).enrichment = some e) :
    e.num_samples = data.full_prices.length ∧
    e.lamb = pythonRound
      (((cfg.lambda_multiplier.lookup data.timeframe).getD 12) *
        ((data.full_prices.length : ℚ) + 1)) ∧
    (cfg.lambda_multiplier.lookup data.timeframe = none →
      e.lamb = pythonRound (12 * ((data.full_prices.length : ℚ) + 1))) := by
  have he : e = mkEnrichment cfg lib data p := by
    rw [process_enrichment_eq] at h
    by_cases hσ : pyAbsGt (process cfg lib data p).zscore cfg.sigma_thresh = true
    · rw [hσ] at h
      simp at h
      exact h.symm
    · have hσ' : pyAbsGt (process cfg lib data p).zscore cfg.sigma_thresh = false := by
        cases h' : pyAbsGt (process cfg lib data p).zscore cfg.sigma_thresh
        · rfl
        · exact absurd h' hσ
      rw [hσ'] at h
      simp at h
  subst he
  have hlamb : (process_data cfg lib data p).lamb =
      pythonRound (((cfg.lambda_multiplier.lookup data.timeframe).getD 12) *
        (((data.full_prices ++ [p]).length : ℕ) : ℚ)) := rfl
  have hlen : (((data.full_prices ++ [p]).length : ℕ) : ℚ) =
      (data.full_prices.length : ℚ) + 1 := by
    push_cast [List.length_append, List.length_singleton]
    ring
  refine ⟨rfl, ?_, ?_⟩
  · show (process_data cfg lib data p).lamb = _
    rw [hlamb, hlen]
  · intro habs
    show (process_data cfg lib data p).lamb = _
    rw [hlamb, hlen, habs]
    rfl

/-- Witness for C10: with two stored closes and the default `1Min`
multiplier 12, the enrichment reports 2 samples and lambda
`round(12 * 3) = 36`. -/
theorem c10_lambda_sample_count_witness :
    (mkEnrichment cfgThree libId dataB (939/10)).num_samples = 2 ∧
    (mkEnrichment cfgThree libId dataB (939/10)).lamb = 36 := by
  have hz : (process cfgThree libId dataB (939/10)).zscore = some (-61/20) := by
    rw [process_zscore_eq]
    norm_num [dataB]
  have hσ : pyAbsGt (process cfgThree libId dataB (939/10)).zscore
      cfgThree.sigma_thresh = true := by
    rw [hz]
    norm_num [pyAbsGt, cfgThree]
    rw [abs_of_pos] <;> norm_num
  have hE : (process cfgThree libId dataB (939/10)).enrichment =
      some (mkEnrichment cfgThree libId dataB (939/10)) := by
    rw [process_enrichment_eq, hσ]
    simp
  have h := c10_lambda_sample_count cfgThree libId dataB (939/10)
    (mkEnrichment cfgThree libId dataB (939/10)) hE
  refine ⟨?_, ?_⟩
  · rw [h.1]
    rfl
  · rw [h.2.1]
    norm_num [cfgThree, dataB, pythonRound]

/-! ## Concrete stream-tick evaluations (shared by C2, C3, C6) -/

theorem eval_zscore_A4 : (process cfgLow libId dataA 4).zscore = some 4 := by
  rw [process_zscore_eq]
  norm_num [dataA]

theorem eval_sigma_A4 :
    pyAbsGt (process cfgLow libId dataA 4).zscore cfgLow.sigma_thresh = true := by
  rw [eval_zscore_A4]
  norm_num [pyAbsGt, cfgLow]

theorem eval_enrichment_A4 :
    (process cfgLow libId dataA 4).enrichment =
      some (mkEnrichment cfgLow libId dataA 4) := by
  rw [process_enrichment_eq, eval_sigma_A4]
  simp

theorem eval_pd_A4 : process_data cfgLow libId dataA 4 =
    { lamb := 36, zscore_trend := some [some 5, some 1, some 4]
    , action := "Buy", price := 1, samples_ago := some 1 } := by
  unfold process_data
  norm_num [dataA, cfgLow, libId, strictLocalMaxima, List.range_succ,
    get_last_action, pythonRound]
  simp

theorem eval_mk_A4 : mkEnrichment cfgLow libId dataA 4 =
    { symbol := "A", num_samples := 2, lamb := 36, action := "Buy", price := 1
    , current_price := 4, samples_ago := some 1, zscore_trend := some (some 4)
    , zscore_trend_alert := true } := by
  unfold mkEnrichment
  rw [eval_pd_A4]
  norm_num [dataA, pyAbsGt, cfgLow]

theorem eval_tick1_out :
    streamTick cfgLow libId dataA initialTrendState 9 =
      { result := process cfgLow libId dataA 9, reachedLogAlert := true
      , alertLogged := true, trendState := trendStateBuy9 } := by
  have hgt9 : pyAbsGt (some (9 : ℚ)) cfgLow.zscore_trend_thresh = true := by
    norm_num [pyAbsGt, cfgLow]
  have hlat9 : (process cfgLow libId dataA 9).latest_price = 9 := rfl
  simp [streamTick, eval_enrichment_A9, eval_mk_A9, eval_sigma_A9, hgt9,
    log_alert, initialTrendState, trendStateBuy9, hlat9]

theorem eval_tick2_out :
    streamTick cfgLow libId dataA trendStateBuy9 4 =
      { result := process cfgLow libId dataA 4, reachedLogAlert := true
      , alertLogged := true, trendState := trendStateBuy9 } := by
  have hgt4 : pyAbsGt (some (4 : ℚ)) cfgLow.zscore_trend_thresh = true := by
    norm_num [pyAbsGt, cfgLow]
  simp [streamTick, eval_enrichment_A4, eval_mk_A4, eval_sigma_A4, hgt4,
    log_alert, trendStateBuy9]

/-! ## C2 -/

/-- C2 fails on the code: across two consecutive corroborated `Buy`
evaluations of the same symbol (prices 9 then 4), the Tracker's stored
extreme price stays at 9 instead of being extended to
`min 9 4 = 4`.  `StreamProcessor.log_alert` only touches
`extreme_price` when the action changes; the min/max extension logic
exists only in the never-invoked
`SymbolDataManager.update_price_trends`.  The first evaluation does
reset the extreme price to the triggering price; the second is
corroborated, classified `Buy` again, and leaves the extreme price at
9. -/
theorem c2_extreme_price_not_extended :
    (streamTick cfgLow libId dataA initialTrendState 9).trendState.last_action =
        some "Buy" ∧
    (streamTick cfgLow libId dataA initialTrendState 9).trendState.extreme_price =
        some 9 ∧
    (process cfgLow libId dataA 4).enrichment.map (fun e => e.action) =
        some "Buy" ∧
    (streamTick cfgLow libId dataA
        (streamTick cfgLow libId dataA initialTrendState 9).trendState
        4).reachedLogAlert = true ∧
    (streamTick cfgLow libId dataA
        (streamTick cfgLow libId dataA initialTrendState 9).trendState
        4).trendState.extreme_price = some 9 := by
  refine ⟨?_, ?_, ?_, ?_, ?_⟩
  · rw [eval_tick1_out]
    rfl
  · rw [eval_tick1_out]
    rfl
  · rw [eval_enrichment_A4, eval_mk_A4]
    rfl
  · rw [eval_tick1_out]
    show (streamTick cfgLow libId dataA trendStateBuy9 4).reachedLogAlert = true
    rw [eval_tick2_out]
  · rw [eval_tick1_out]
    show (streamTick cfgLow libId dataA trendStateBuy9 4).trendState.extreme_price =
      some 9
    rw [eval_tick2_out]
    rfl

/-! ## C3 -/

/-- C3 fails on the code: on a corroborated evaluation (price 9, alert
record logged) the Tracker leaves `day_high` and `day_low` at `None`
instead of updating them to `max/min` with the price.  Nothing in the
executed path ever writes those fields: the only writer,
`SymbolDataManager.update_price_trends`, is never called, and
`StreamProcessor.log_alert` merely reads them in its TREND CHANGE
message (where formatting `None` with a float format spec raises). -/
theorem c3_day_range_never_updated :
    (streamTick cfgLow libId dataA initialTrendState 9).reachedLogAlert = true ∧
    (streamTick cfgLow libId dataA initialTrendState 9).alertLogged = true ∧
    (streamTick cfgLow libId dataA initialTrendState 9).trendState.day_high = none ∧
    (streamTick cfgLow libId dataA initialTrendState 9).trendState.day_low = none := by
  rw [eval_tick1_out]
  exact ⟨rfl, rfl, rfl, rfl⟩

/-! ## C6 -/

/-- C6 fails on the code: an evaluation that crosses the sigma threshold
(enrichment computed) leaves the stored close sequence unchanged —
`np.append(data.full_prices, new_price)` builds a fresh local array and
`data.full_prices` is never reassigned, so the stored sequence does not
grow.  The repository's own mutator `SymbolData.append_price`, which
would grow it, is not called on this path. -/
theorem c6_full_prices_not_appended :
    (processCall cfgLow libId dataA 9).1.enrichment.isSome = true ∧
    (processCall cfgLow libId dataA 9).2.full_prices = [5, 1] ∧
    (processCall cfgLow libId dataA 9).2.full_prices.length = 2 ∧
    (SymbolData.append_price dataA 9).full_prices = [5, 1, 9] := by
  refine ⟨?_, rfl, rfl, rfl⟩
  · show (process cfgLow libId dataA 9).enrichment.isSome = true
    rw [eval_enrichment_A9]
    rfl

/-! ## C7 -/

theorem takeChunks_flatten {α : Type} (sizes : List ℕ) (l : List α)
    (h : l.length ≤ sizes.sum) : (takeChunks sizes l).flatten = l := by
  induction sizes generalizing l with
  | nil =>
    simp only [List.sum_nil, Nat.le_zero] at h
    rw [List.eq_nil_of_length_eq_zero h]
    rfl
  | cons s ss ih =>
    simp only [takeChunks, List.flatten_cons]
    rw [ih (l.drop s) ?_, List.take_append_drop]
    rw [List.length_drop]
    simp only [List.sum_cons] at h
    omega

theorem splitSizes_sum (n k : ℕ) : (splitSizes n k).sum = n := by
  unfold splitSizes
  simp only [List.sum_append, List.sum_replicate, smul_eq_mul]
  rcases Nat.eq_zero_or_pos k with hk | hk
  · subst hk
    simp
  · have h1 : n % k ≤ k := le_of_lt (Nat.mod_lt n hk)
    have h2 := Nat.mod_add_div n k
    have h3 : (k - n % k) * (n / k) = k * (n / k) - (n % k) * (n / k) :=
      Nat.sub_mul _ _ _
    have h4 : (n % k) * (n / k) ≤ k * (n / k) := Nat.mul_le_mul_right _ h1
    have h5 : (n % k) * (n / k + 1) = (n % k) * (n / k) + n % k := Nat.mul_succ _ _
    omega

theorem arraySplit_flatten {α : Type} (l : List α) (k : ℕ) :
    (arraySplit l k).flatten = l := by
  unfold arraySplit
  exact takeChunks_flatten _ _ (by rw [splitSizes_sum])

theorem processChunk_append (procFn : SymbolData → ℚ → DetectionResult)
    (l1 l2 : List SymbolData) (prices : List (String × ℚ)) :
    processChunk procFn (l1 ++ l2) prices =
      processChunk procFn l1 prices ++ processChunk procFn l2 prices := by
  simp [processChunk, List.filterMap_append]

theorem flatten_map_processChunk (procFn : SymbolData → ℚ → DetectionResult)
    (chunks : List (List SymbolData)) (prices : List (String × ℚ)) :
    (chunks.map (fun c => processChunk procFn c prices)).flatten =
      processChunk procFn chunks.flatten prices := by
  induction chunks with
  | nil => simp [processChunk]
  | cons c cs ih => simp [processChunk_append, ih]

/-- C7: for every batch of (symbol series, new price) pairs and every
requested worker count and host parallelism in `[1, N]`, the parallel
fan-out's concatenated result list equals the single-threaded result
list element-for-element: `np.array_split` cuts the batch into
contiguous chunks whose concatenation in chunk order is the batch, and
each chunk is evaluated by the same pure processing function (the same
threshold snapshot on both sides). -/
theorem c7_parallel_equiv (procFn : SymbolData → ℚ → DetectionResult)
    (symbol_data_list : List SymbolData) (new_prices : List (String × ℚ))
    (num_processes cpu_count : ℕ)
    (h1 : 1 ≤ num_processes) (h2 : 1 ≤ cpu_count) :
    process_symbols procFn num_processes cpu_count symbol_data_list new_prices =
      singleThreadedProcess procFn symbol_data_list new_prices := by
  unfold process_symbols singleThreadedProcess
  rw [flatten_map_processChunk, arraySplit_flatten]

/-- Witness for C7: a concrete two-symbol batch with 3 requested workers
on a 2-cpu host matches the single-threaded evaluation. -/
theorem c7_parallel_equiv_witness :
    process_symbols (fun d p => process cfgLow libId d p) 3 2 [dataA, dataB]
        [("A", 9)] =
      singleThreadedProcess (fun d p => process cfgLow libId d p) [dataA, dataB]
        [("A", 9)] :=
  c7_parallel_equiv (fun d p => process cfgLow libId d p) [dataA, dataB]
    [("A", 9)] 3 2 (by norm_num) (by norm_num)

/-! ## C8 -/

theorem key_nodup_eq {β : Type} (l : List (String × β))
    (hnd : (l.map Prod.fst).Nodup) {s : String} {a b : β}
    (ha : (s, a) ∈ l) (hb : (s, b) ∈ l) : a = b := by
  induction l with
  | nil => cases ha
  | cons p ps ih =>
    rw [List.map_cons, List.nodup_cons] at hnd
    rcases List.mem_cons.mp ha with ha' | ha'
    · rcases List.mem_cons.mp hb with hb' | hb'
      · exact congrArg Prod.snd (ha'.trans hb'.symm)
      · exfalso
        apply hnd.1
        rw [← ha']
        exact List.mem_map.mpr ⟨(s, b), hb', rfl⟩
    · rcases List.mem_cons.mp hb with hb' | hb'
      · exfalso
        apply hnd.1
        rw [← hb']
        exact List.mem_map.mpr ⟨(s, a), ha', rfl⟩
      · exact ih hnd.2 ha' hb'

theorem lookup_none_of_no_key {β : Type} (l : List (String × β)) (s : String)
    (h : ∀ p ∈ l, p.1 ≠ s) : l.lookup s = none := by
  induction l with
  | nil => rfl
  | cons p ps ih =>
    obtain ⟨k, v⟩ := p
    have hk : k ≠ s := h (k, v) (List.mem_cons_self _ _)
    have hks : (s == k) = false := beq_false_of_ne (Ne.symm hk)
    simp only [List.lookup, hks]
    exact ih (fun q hq => h q (List.mem_cons_of_mem _ hq))

theorem lookup_some_of_mem {β : Type} (l : List (String × β)) (s : String)
    (b : β) (h : (s, b) ∈ l) : ∃ c, l.lookup s = some c := by
  induction l with
  | nil => cases h
  | cons p ps ih =>
    obtain ⟨k, v⟩ := p
    by_cases hk : (s == k) = true
    · exact ⟨v, by simp [List.lookup, hk]⟩
    · have hks : (s == k) = false := by
        cases hb : (s == k)
        · rfl
        · exact absurd hb hk
      simp only [List.lookup, hks]
      rcases List.mem_cons.mp h with he | hm
      · exfalso
        apply hk
        rw [show s = k from congrArg Prod.fst he]
        exact beq_self_eq_true k
      · exact ih hm

theorem dropDecision_eq_claim (validDays : List ℤ) (rows : List FetchedRow)
    (lvd : ℤ) (hlvd : lastValidDay validDays = some lvd) :
    dropDecision validDays rows = claimDropCond lvd rows := by
  unfold dropDecision claimDropCond
  rw [hlvd]
  by_cases h1 : rows.length < 2
  · simp [h1]
  · simp only [if_neg h1]
    by_cases h2 : (baselinePrices lvd rows).length < 2
    · simp [h1, h2]
    · simp only [if_neg h2, List.getLastD_eq_getLast?]
      by_cases h3 : pyListVariance (baselinePrices lvd rows) = some 0 ∨
          pyListVariance (baselinePrices lvd rows) = none ∨
          (baselinePrices lvd rows).getLast?.getD none = none
      · rcases h3 with h | h | h <;>
          simp [h1, h2, h]
      · push_neg at h3
        by_cases h4 : pySub ((baselinePrices lvd rows).getLast?.getD none)
            (pyListMean (baselinePrices lvd rows)) = none
        · simp [h1, h2, h3.1, h3.2.1, h3.2.2, h4]
        · simp [h1, h2, h3.1, h3.2.1, h3.2.2, h4]

/-- Counterexample to C8 as stated: a symbol whose fetch returned no
rows at all satisfies a drop condition (0 historical rows) and gets no
`SymbolSeries`, yet it is *not* absent from the active symbol set —
`initialize_data` only creates `SymbolData` for non-empty frames, and
the removal loop only walks `symbol_data`, so the symbol is never
removed from `self.symbols`. -/
theorem c8_zero_row_counterexample :
    claimDropCond 0 ([] : List FetchedRow) = true ∧
    (calibrate ["A"] [0, 1] [("A", [])]).symbolRows.lookup "A" = none ∧
    "A" ∈ (calibrate ["A"] [0, 1] [("A", [])]).symbols := by
  refine ⟨rfl, rfl, ?_⟩
  decide

/-- C8, amended: for a symbol whose fetch produced at least one row (so
a `SymbolData` entry is created), and a resolved calendar with a
baseline day, the symbol is absent from the active symbol set and has no
series after calibration exactly when one of the claim's drop conditions
held; the decision is per-symbol (never fatal to the rest of the
batch).  A symbol with an empty fetched frame keeps its place in the
active symbol set (see the counterexample). -/
theorem c8_drop_conditions_amended (symbols : List String)
    (validDays : List ℤ) (historical : List (String × List FetchedRow))
    (s : String) (rows : List FetchedRow) (lvd : ℤ)
    (hlvd : lastValidDay validDays = some lvd)
    (hmem : (s, rows) ∈ historical)
    (hrows : rows ≠ [])
    (hs : s ∈ symbols)
    (hnd : (historical.map Prod.fst).Nodup) :
    (s ∉ (calibrate symbols validDays historical).symbols ↔
      claimDropCond lvd rows = true) ∧
    ((calibrate symbols validDays historical).symbolRows.lookup s = none ↔
      claimDropCond lvd rows = true) := by
  classical
  set SR := historical.filter (fun p => ¬ p.2 = []) with hSR
  set TR := (SR.filter (fun p => dropDecision validDays p.2)).map Prod.fst with hTRdef
  have hmemSR : (s, rows) ∈ SR := by
    rw [hSR]
    exact List.mem_filter.mpr ⟨hmem, by simpa using hrows⟩
  have hkey : ∀ p ∈ historical, p.1 = s → p = (s, rows) := by
    intro p hp hp1
    obtain ⟨k, v⟩ := p
    simp only at hp1
    subst hp1
    have := key_nodup_eq historical hnd hp hmem
    rw [this]
  have hTR : s ∈ TR ↔ dropDecision validDays rows = true := by
    constructor
    · intro hin
      obtain ⟨p, hpfil, hp1⟩ := List.mem_map.mp hin
      have hpSR : p ∈ SR := (List.mem_filter.mp hpfil).1
      have hpd : dropDecision validDays p.2 = true := by
        simpa using (List.mem_filter.mp hpfil).2
      have hpH : p ∈ historical := by
        rw [hSR] at hpSR
        exact (List.mem_filter.mp hpSR).1
      rw [hkey p hpH hp1] at hpd
      exact hpd
    · intro hd
      exact List.mem_map.mpr
        ⟨(s, rows), List.mem_filter.mpr ⟨hmemSR, by simpa using hd⟩, rfl⟩
  have hclaim : s ∈ TR ↔ claimDropCond lvd rows = true := by
    rw [hTR, dropDecision_eq_claim validDays rows lvd hlvd]
  have hkeySR : ∀ p ∈ SR, p.1 = s → p = (s, rows) := by
    intro p hp hp1
    apply hkey p ?_ hp1
    rw [hSR] at hp
    exact (List.mem_filter.mp hp).1
  constructor
  · rw [← hclaim]
    show s ∉ symbols.filter (fun x => ¬ TR.contains x) ↔ s ∈ TR
    constructor
    · intro hnot
      by_contra hnin
      apply hnot
      apply List.mem_filter.mpr
      refine ⟨hs, ?_⟩
      simpa [List.elem_iff] using hnin
    · intro hin hmemf
      have := (List.mem_filter.mp hmemf).2
      simp [List.elem_iff] at this
      exact this hin
  · rw [← hclaim]
    show (SR.filter (fun p => ¬ TR.contains p.1)).lookup s = none ↔ s ∈ TR
    constructor
    · intro hnone
      by_contra hnin
      have hmemf : (s, rows) ∈ SR.filter (fun p => ¬ TR.contains p.1) := by
        apply List.mem_filter.mpr
        refine ⟨hmemSR, ?_⟩
        simpa [List.elem_iff] using hnin
      obtain ⟨c, hc⟩ := lookup_some_of_mem _ s rows hmemf
      rw [hc] at hnone
      cases hnone
    · intro hin
      apply lookup_none_of_no_key
      intro p hp hp1
      have hpSR : p ∈ SR := (List.mem_filter.mp hp).1
      have hpTR := (List.mem_filter.mp hp).2
      rw [hkeySR p hpSR hp1] at hpTR
      simp [List.elem_iff] at hpTR
      exact hpTR hin

/-- Witness for the amended C8, the spec's concrete scenario: a symbol
with only one historical row is dropped — absent from the active set and
without a series. -/
theorem c8_drop_conditions_amended_witness :
    "A" ∉ (calibrate ["A"] [0, 1]
        [("A", [({ date := 1, close := some 5 } : FetchedRow)])]).symbols ∧
    (calibrate ["A"] [0, 1]
        [("A", [({ date := 1, close := some 5 } : FetchedRow)])]).symbolRows.lookup
      "A" = none := by
  have h := c8_drop_conditions_amended ["A"] [0, 1]
    [("A", [({ date := 1, close := some 5 } : FetchedRow)])] "A"
    [({ date := 1, close := some 5 } : FetchedRow)] 0
    rfl (by simp) (by simp) (by simp) (by simp)
  exact ⟨h.1.mpr rfl, h.2.mpr rfl⟩

/-! ## C9 -/

theorem retryGo_succ (att : ℕ → AttemptResult) (n k : ℕ) :
    retryGo att n (k + 1) =
      (match (att n).succRows with
       | some rows => ([⟨n, att n, coolDownOf (att n), none⟩], some rows)
       | none =>
         if (att n).retryable ∧ k ≠ 0 then
           (⟨n, att n, coolDownOf (att n), some (tenacityWait n)⟩ ::
             (retryGo att (n + 1) k).1, (retryGo att (n + 1) k).2)
         else ([⟨n, att n, coolDownOf (att n), none⟩], none)) := rfl

theorem succRows_some_not_retryable (r : AttemptResult)
    (rows : List FetchedRow) (h : r.succRows = some rows) :
    r.retryable = false := by
  cases r <;> simp [AttemptResult.succRows, AttemptResult.retryable] at h ⊢

theorem retryGo_length (att : ℕ → AttemptResult) (fuel : ℕ) :
    ∀ n, (retryGo att n fuel).1.length ≤ fuel := by
  induction fuel with
  | zero =>
    intro n
    simp [retryGo]
  | succ k ih =>
    intro n
    rw [retryGo_succ]
    cases hs : (att n).succRows with
    | some rows => simp
    | none =>
      by_cases hr : (att n).retryable = true ∧ k ≠ 0
      · simp only [if_pos hr, List.length_cons]
        exact Nat.succ_le_succ (ih (n + 1))
      · simp [hr]

theorem retryGo_head (att : ℕ → AttemptResult) (n k : ℕ) (h : 1 ≤ k) :
    ∃ ev rest, (retryGo att n k).1 = ev :: rest ∧ ev.number = n := by
  cases k with
  | zero => omega
  | succ k'  =>
    rw [retryGo_succ]
    cases hs : (att n).succRows with
    | some rows => exact ⟨_, _, rfl, rfl⟩
    | none =>
      by_cases hr : (att n).retryable = true ∧ k' ≠ 0
      · rw [if_pos hr]
        exact ⟨_, _, rfl, rfl⟩
      · rw [if_neg hr]
        exact ⟨_, _, rfl, rfl⟩

theorem retryGo_events (att : ℕ → AttemptResult) (fuel : ℕ) :
    ∀ n, ∀ ev ∈ (retryGo att n fuel).1,
      ev.result = att ev.number ∧
      ev.coolDown = coolDownOf (att ev.number) ∧
      (∀ w, ev.backoff = some w → w = tenacityWait ev.number) ∧
      n ≤ ev.number ∧ ev.number < n + fuel ∧
      (ev.backoff.isSome = true →
        ∃ ev2 ∈ (retryGo att n fuel).1, ev2.number = ev.number + 1) ∧
      ((att ev.number).retryable = true → ev.number + 1 < n + fuel →
        ev.backoff.isSome = true) := by
  induction fuel with
  | zero =>
    intro n ev hev
    simp [retryGo] at hev
  | succ k ih =>
    intro n ev hev
    rw [retryGo_succ] at hev
    cases hs : (att n).succRows with
    | some rows =>
      rw [hs] at hev
      simp only [List.mem_singleton] at hev
      subst hev
      refine ⟨rfl, rfl, by simp, le_refl n,
        by show n < n + (k + 1); omega, by simp, ?_⟩
      intro hr _
      rw [succRows_some_not_retryable (att n) rows hs] at hr
      cases hr
    | none =>
      rw [hs] at hev
      by_cases hr : (att n).retryable = true ∧ k ≠ 0
      · rw [if_pos hr] at hev
        rcases List.mem_cons.mp hev with he | hm
        · subst he
          refine ⟨rfl, rfl, ?_, le_refl n,
            by show n < n + (k + 1); omega, ?_, ?_⟩
          · intro w hw
            simpa using hw.symm
          · intro _
            obtain ⟨ev2, rest2, hrest, hnum⟩ :=
              retryGo_head att (n + 1) k (Nat.one_le_iff_ne_zero.mpr hr.2)
            refine ⟨ev2, ?_, by show ev2.number = n + 1; exact hnum⟩
            rw [retryGo_succ, hs, if_pos hr]
            exact List.mem_cons_of_mem _ (hrest ▸ List.mem_cons_self _ _)
          · intro _ _
            rfl
        · obtain ⟨h1, h2, h3, h4, h5, h6, h7⟩ := ih (n + 1) ev hm
          refine ⟨h1, h2, h3, by omega, by omega, ?_, ?_⟩
          · intro hbs
            obtain ⟨ev2, hev2, hnum⟩ := h6 hbs
            refine ⟨ev2, ?_, hnum⟩
            rw [retryGo_succ, hs, if_pos hr]
            exact List.mem_cons_of_mem _ hev2
          · intro hrr hlt
            exact h7 hrr (by omega)
      · rw [if_neg hr] at hev
        simp only [List.mem_singleton] at hev
        subst hev
        refine ⟨rfl, rfl, by simp, le_refl n,
          by show n < n + (k + 1); omega, by simp, ?_⟩
        intro hrr hlt
        have hlt' : n + 1 < n + (k + 1) := hlt
        exact absurd ⟨hrr, by omega⟩ hr

theorem fetch_keys (symbols : List String) (att : String → ℕ → AttemptResult)
    (p : String × List FetchedRow) (hp : p ∈ fetch_historical_data symbols att) :
    p.1 ∈ symbols := by
  obtain ⟨t, ht, hmap⟩ := List.mem_filterMap.mp hp
  cases ho : (fetch_symbol_data (att t)).2 with
  | none =>
    rw [ho] at hmap
    cases hmap
  | some rows =>
    rw [ho] at hmap
    simp only [Option.map_some'] at hmap
    cases hmap
    exact ht

theorem fetch_lookup (symbols : List String) (att : String → ℕ → AttemptResult)
    (s : String) (hs : s ∈ symbols) (hnd : symbols.Nodup) :
    (fetch_historical_data symbols att).lookup s = (fetch_symbol_data (att s)).2 := by
  induction symbols with
  | nil => cases hs
  | cons t ts ih =>
    rw [List.nodup_cons] at hnd
    rcases List.mem_cons.mp hs with he | hm
    · subst he
      simp only [fetch_historical_data, List.filterMap_cons]
      cases ho : (fetch_symbol_data (att s)).2 with
      | some rows =>
        simp only [Option.map_some']
        simp [List.lookup, ho]
      | none =>
        simp only [Option.map_none']
        apply lookup_none_of_no_key
        intro p hp hp1
        apply hnd.1
        rw [← hp1]
        exact fetch_keys ts att p hp
    · have hst : s ≠ t := by
        intro he
        subst he
        exact hnd.1 hm
      simp only [fetch_historical_data, List.filterMap_cons]
      cases ho : (fetch_symbol_data (att t)).2 with
      | some rows =>
        simp only [Option.map_some']
        have hbf : (s == t) = false := beq_false_of_ne hst
        simp only [List.lookup, hbf]
        exact ih hm hnd.2
      | none =>
        simp only [Option.map_none']
        exact ih hm hnd.2

/-- C9: every batch fetch yields a per-symbol outcome — a symbol's entry
in the result is exactly its own retry loop's success, independent of
the other symbols, and a failing symbol only loses its own entry
(`asyncio.gather(..., return_exceptions=True)` plus the non-exception
filter).  Per symbol: at most 5 attempts are made
(`stop_after_attempt(5)`); a 429 response sleeps the fixed 60-second
cool-down inside the attempt; every back-off slept between attempts is
the exponential `2 ^ attempt` clamped to `[4, 60]` seconds
(`wait_exponential(multiplier=1, min=4, max=60)`); a retryable failure
(429, other non-2xx, timeout) below the attempt cap is always followed
by the next attempt. -/
theorem c9_fetch_retry_policy (symbols : List String)
    (att : String → ℕ → AttemptResult) (s : String)
    (hs : s ∈ symbols) (hnd : symbols.Nodup) :
    ((fetch_historical_data symbols att).lookup s =
      (fetch_symbol_data (att s)).2) ∧
    (fetch_symbol_data (att s)).1.length ≤ 5 ∧
    (∀ ev ∈ (fetch_symbol_data (att s)).1,
      ev.result = AttemptResult.rate429 → ev.coolDown = some 60) ∧
    (∀ ev ∈ (fetch_symbol_data (att s)).1, ∀ w, ev.backoff = some w →
      w = max 4 (min 60 ((2 : ℚ) ^ ev.number))) ∧
    (∀ ev ∈ (fetch_symbol_data (att s)).1, ev.backoff.isSome = true →
      ∃ ev2 ∈ (fetch_symbol_data (att s)).1, ev2.number = ev.number + 1) ∧
    (∀ ev ∈ (fetch_symbol_data (att s)).1,
      (att s ev.number).retryable = true → ev.number + 1 < 6 →
      ev.backoff.isSome = true) := by
  refine ⟨fetch_lookup symbols att s hs hnd, retryGo_length (att s) 5 1,
    ?_, ?_, ?_, ?_⟩
  · intro ev hev hres
    obtain ⟨h1, h2, _⟩ := retryGo_events (att s) 5 1 ev hev
    rw [h2, ← h1, hres]
    rfl
  · intro ev hev w hw
    obtain ⟨_, _, h3, _⟩ := retryGo_events (att s) 5 1 ev hev
    exact h3 w hw
  · intro ev hev hbs
    obtain ⟨_, _, _, _, _, h6, _⟩ := retryGo_events (att s) 5 1 ev hev
    exact h6 hbs
  · intro ev hev hrr hlt
    obtain ⟨_, _, _, _, _, _, h7⟩ := retryGo_events (att s) 5 1 ev hev
    exact h7 hrr (by omega)

/-- Witness for C9: with every attempt answering 429, the symbol's entry
is absent from the batch result (its own failure, not the batch's), and
its attempt count respected the cap. -/
theorem c9_fetch_retry_policy_witness :
    (fetch_historical_data ["A", "B"]
        (fun _ _ => AttemptResult.rate429)).lookup "A" = none ∧
    (fetch_symbol_data
        ((fun (_ : String) (_ : ℕ) => AttemptResult.rate429) "A")).1.length ≤ 5 := by
  have h := c9_fetch_retry_policy ["A", "B"] (fun _ _ => AttemptResult.rate429)
    "A" (by simp) (by simp)
  refine ⟨?_, h.2.1⟩
  rw [h.1]
  rfl

end StockSpec
